import Mathlib
set_option maxRecDepth 16384
/-!
Verification of the IngredientCheck project-generator scripts.

The repository consists of two Python scripts:

* `fix_xcode_project.py` reads `IngredientCheck.xcodeproj/project.pbxproj`,
  performs one `re.sub` whose pattern is the literal line
  `29AC08AD89804E0C859D685F /* Info.plist */,\n` (captured as group 1) and whose
  replacement is the captured group followed by three hand-written entry lines,
  writes the result back, and unconditionally prints a success message.

* `create_project.py` mints 24-character identifiers with
  `gen_uuid() = str(uuid.uuid4()).upper().replace('-', '')[:24]`, discovers
  Swift sources with `sorted(Path("IngredientCheck").rglob("*.swift"))`,
  and renders a `project.pbxproj` descriptor plus an `.xcscheme` document by
  string interpolation into a fixed template.

This file embeds both scripts shallowly.  Text is modelled as `List Char`.
`re.sub` with a literal pattern is modelled by a left-to-right greedy scan
(`repl`), exactly as the Python regex engine treats a fully escaped pattern:
at each position, if the pattern matches, the replacement is emitted and the
scan resumes after the matched text, otherwise the character is copied.
-/

/- ### Model of `re.sub` with a literal pattern

`replAux old new l k` scans `l`; a positive skip count `k` means the scan is
still inside previously matched text.  Structural recursion on the list keeps
the definition kernel-computable; `repl_cons` recovers the natural unfolding.
The `old ≠ []` side condition in the guard is vacuous for the concrete
patterns used below (they are nonempty); it only keeps the scan total. -/
def replAux (old new : List Char) : List Char → Nat → List Char
  | [], _ => []
  | _ :: r, k+1 => replAux old new r k
  | c :: r, 0 =>
    if old <+: (c :: r) ∧ old ≠ [] then
      new ++ replAux old new r (old.length - 1)
    else
      c :: replAux old new r 0

/-- Model of Python `re.sub(pat, rep, l)` for a literal pattern `old`,
replacing every non-overlapping occurrence, leftmost first, by `new`. -/
def repl (old new l : List Char) : List Char :=
  replAux old new l 0

/-- The segments of `l` between the occurrences of `old` that the greedy
left-to-right scan finds (the analogue of `re.split` on a literal pattern). -/
def splitSubAux (old : List Char) : List Char → Nat → List (List Char)
  | [], _ => [[]]
  | _ :: r, k+1 => splitSubAux old r k
  | c :: r, 0 =>
    if old <+: (c :: r) ∧ old ≠ [] then
      [] :: splitSubAux old r (old.length - 1)
    else
      match splitSubAux old r 0 with
      | [] => [[c]]
      | s :: ss => (c :: s) :: ss

def splitSub (old l : List Char) : List (List Char) :=
  splitSubAux old l 0

/-- Interleave a separator between consecutive segments. -/
def joinWith (sep : List Char) : List (List Char) → List Char
  | [] => []
  | [p] => p
  | p :: q :: ps => p ++ sep ++ joinWith sep (q :: ps)

/- ### The patch script `fix_xcode_project.py` -/

/-- The literal text matched by the patcher's pattern
`r'(29AC08AD89804E0C859D685F /\* Info\.plist \*/,\n)'` (every regex
metacharacter in it is escaped, so it matches exactly this text,
captured as group 1). -/
def fixAnchor : List Char :=
  ("29AC08AD89804E0C859D685F /* Info.plist */,\n").toList

/-- The three entry lines the patcher appends after the captured anchor
(the replacement template is `\g<1>` followed by this text). -/
def fixInsert : List Char :=
  ("\t\t\t78161C51F7B44DA9BB14806E /* RegulatorySubstance.swift */,\n\t\t\t9E921CFE26EB4D9E871513FE /* RegulatoryBadgeView.swift */,\n\t\t\tA11B83C27A0F41EA9CED4D76 /* ECHA_Regulatory_Data.json */,\n").toList

/-- `content = re.sub(pattern, replacement, content)`: each match of the
anchor is replaced by itself followed by the inserted lines. -/
def patchContent (content : List Char) : List Char :=
  repl fixAnchor (fixAnchor ++ fixInsert) content

/-- The message the script prints unconditionally at the end. -/
def fixSuccessMessage : List Char :=
  ("✅ Added files to IngredientCheck group").toList

/-- One run of `fix_xcode_project.py` on a descriptor with the given
contents: the contents written back, and the message reported.  The script
has no error path; it prints the success message on every run. -/
def fixScriptRun (content : List Char) : List Char × List Char :=
  (patchContent content, fixSuccessMessage)

/-- No nonempty suffix of the inserted block begins a match of the anchor:
the anchor neither occurs inside the block nor straddles its end.  This is
the concrete property of the patcher's literal texts that makes the second
scan well-behaved. -/
def cleanFor (A I : List Char) : Prop :=
  ∀ j, j < I.length → ¬ (I.drop j <+: A) ∧ ¬ (A <+: I.drop j)

/-- Greedy-segment invariant produced by the scan: no position of an inner
segment, continued by the anchor that follows it, starts a match; no
position of the final segment starts a match at all. -/
def goodParts (A : List Char) : List (List Char) → Prop
  | [] => True
  | [p] => ∀ j, j < p.length → ¬ A <+: p.drop j
  | p :: q :: ps => (∀ j, j < p.length → ¬ A <+: (p.drop j ++ A)) ∧ goodParts A (q :: ps)

/- ### The generator `create_project.py`: identifier minting (claim C9)

`gen_uuid()` is `str(uuid.uuid4()).upper().replace('-', '')[:24]`.
`str(uuid.uuid4())` is 32 lowercase hexadecimal digits laid out in groups of
8-4-4-4-12 separated by four hyphens; the model takes the 32 digit values
(which include the version and variant digits the library forces) as input. -/

/-- Lowercase hexadecimal digit, as `uuid` renders them. -/
def hexChar (n : Fin 16) : Char :=
  (("0123456789abcdef").toList).getD n.val '0'

/-- `str(uuid.uuid4())` for digit values `d` (laid out 8-4-4-4-12). -/
def uuidStr (d : List (Fin 16)) : List Char :=
  (d.take 8).map hexChar
    ++ '-' :: ((d.drop 8).take 4).map hexChar
    ++ '-' :: ((d.drop 12).take 4).map hexChar
    ++ '-' :: ((d.drop 16).take 4).map hexChar
    ++ '-' :: (d.drop 20).map hexChar

/-- `gen_uuid()`: uppercase the rendering, delete the hyphens with
`str.replace`, keep the first 24 characters. -/
def genUuid (d : List (Fin 16)) : List Char :=
  (repl ['-'] [] ((uuidStr d).map Char.toUpper)).take 24

/- ### Source discovery `get_swift_files` (claim C3)

A file system tree is modelled as the finite list of file paths below the
working directory, each path a list of components (as `pathlib` represents
paths by their parts).  `Path.rglob("*.swift")` yields, in an unspecified
enumeration order, exactly the entries whose final component ends in
`.swift`; `sorted` orders `Path` values by their parts tuple, that is,
lexicographically on the component lists (components compared as strings,
characters by code point).  `str(f)` joins the parts with `/`.  Any
comparison-based sort agrees with Python's `sorted` here because the order
is total and antisymmetric, so equal-comparing paths are equal. -/

/-- Does the final path component match the glob `*.swift`? -/
def isSwiftFile (p : List (List Char)) : Bool :=
  (p.getLast?).elim false (fun n => (".swift").toList.isSuffixOf n)

/-- The matching paths in `Path`-sorted (componentwise lexicographic) order. -/
def sortedSwift (tree : List (List (List Char))) : List (List (List Char)) :=
  List.insertionSort (· ≤ ·) (tree.filter isSwiftFile)

/-- Render a path as a string, joining components with `/`. -/
def pathStr (p : List (List Char)) : List Char :=
  joinWith (("/").toList) p

/-- `get_swift_files()`: the sorted matching paths, each rendered with
`str`. -/
def get_swift_files (tree : List (List (List Char))) : List (List Char) :=
  (sortedSwift tree).map pathStr

/- ### Per-file attributes used by the template (claim C8) -/

/-- `os.path.basename(fp)`: the part of `fp` after the last `/`. -/
def basename (s : List Char) : List Char :=
  (s.reverse.takeWhile (fun c => c ≠ '/')).reverse

/-- The text `"IngredientCheck/"` removed by the generator when it derives
the `path` attribute of a `PBXFileReference`. -/
def projRootPrefix : List Char :=
  ("IngredientCheck/").toList

/-- `fp.replace("IngredientCheck/", "")`: Python `str.replace` removes
every occurrence of the substring, not only a leading one. -/
def relPath (s : List Char) : List Char :=
  repl projRootPrefix [] s

/-- The path attribute as claim C8 describes it: the path with the single
leading `IngredientCheck/` prefix removed and no other modification. -/
def specRelPath (s : List Char) : List Char :=
  if projRootPrefix <+: s then s.drop projRootPrefix.length else s

/- ### Template assembly

One generation run is an assignment of minted identifiers: the sixteen
project-level identifiers produced by the successive `gen_uuid()` calls and
the two per-file maps (`file_uuids`, `build_file_uuids`).  The rendered
descriptor and scheme are functions of the run and the discovered file
list. -/
structure Run where
  projectUuid : List Char
  mainGroupUuid : List Char
  sourceGroupUuid : List Char
  targetUuid : List Char
  sourceBuildPhaseUuid : List Char
  resourcesBuildPhaseUuid : List Char
  frameworksBuildPhaseUuid : List Char
  buildConfigListProjectUuid : List Char
  buildConfigListTargetUuid : List Char
  debugConfigProjectUuid : List Char
  releaseConfigProjectUuid : List Char
  debugConfigTargetUuid : List Char
  releaseConfigTargetUuid : List Char
  productRefUuid : List Char
  productsGroupUuid : List Char
  infoPlistUuid : List Char
  fileUuid : List Char → List Char
  buildFileUuid : List Char → List Char

/-- One piece of an f-string template: fixed literal text, file-derived
text (a base name or a relative path), or a minted identifier.  An
f-string renders as the concatenation of its pieces. -/
inductive Piece where
  | lit : List Char → Piece
  | name : List Char → Piece
  | ident : List Char → Piece

def Piece.text : Piece → List Char
  | .lit s => s
  | .name s => s
  | .ident s => s

/-- Render a piece list: the f-string's value. -/
def flat (ps : List Piece) : List Char :=
  (ps.map Piece.text).flatten

def projectName : List Char :=
  ("IngredientCheck").toList

def bundleId : List Char :=
  ("com.o1o1intl.IngredientCheck").toList

/-- The `build_files` section loop: one `PBXBuildFile` entry per file. -/
def buildFilesPieces (r : Run) (files : List (List Char)) : List Piece :=
  (files.map (fun fp =>
    [Piece.lit ("\t\t").toList, Piece.ident (r.buildFileUuid fp),
      Piece.lit (" /* ").toList, Piece.name (basename fp),
      Piece.lit (" in Sources */ = \x7bisa = PBXBuildFile; fileRef = ").toList,
      Piece.ident (r.fileUuid fp),
      Piece.lit (" /* ").toList, Piece.name (basename fp),
      Piece.lit (" */; \x7d;\n").toList])).flatten

/-- The `file_refs` section loop: one `PBXFileReference` entry per file,
then the fixed `Info.plist` reference. -/
def fileRefsPieces (r : Run) (files : List (List Char)) : List Piece :=
  (files.map (fun fp =>
    [Piece.lit ("\t\t").toList, Piece.ident (r.fileUuid fp),
      Piece.lit (" /* ").toList, Piece.name (basename fp),
      Piece.lit (" */ = \x7bisa = PBXFileReference; fileEncoding = 4; lastKnownFileType = sourcecode.swift; path = \"").toList,
      Piece.name (relPath fp),
      Piece.lit ("\"; sourceTree = \"<group>\"; \x7d;\n").toList])).flatten
  ++ [Piece.lit ("\t\t").toList, Piece.ident r.infoPlistUuid,
      Piece.lit (" /* Info.plist */ = \x7bisa = PBXFileReference; fileEncoding = 4; lastKnownFileType = text.plist.xml; path = Resources/Info.plist; sourceTree = \"<group>\"; \x7d;\n").toList]

/-- The `source_children` loop: one group-child entry per file, then the
fixed `Info.plist` child. -/
def sourceChildrenPieces (r : Run) (files : List (List Char)) : List Piece :=
  (files.map (fun fp =>
    [Piece.lit ("\t\t\t\t").toList, Piece.ident (r.fileUuid fp),
      Piece.lit (" /* ").toList, Piece.name (basename fp),
      Piece.lit (" */,\n").toList])).flatten
  ++ [Piece.lit ("\t\t\t\t").toList, Piece.ident r.infoPlistUuid,
      Piece.lit (" /* Info.plist */,\n").toList]

/-- The `sources_files` loop: one build-phase member entry per file. -/
def sourcesFilesPieces (r : Run) (files : List (List Char)) : List Piece :=
  (files.map (fun fp =>
    [Piece.lit ("\t\t\t\t").toList, Piece.ident (r.buildFileUuid fp),
      Piece.lit (" /* ").toList, Piece.name (basename fp),
      Piece.lit (" in Sources */,\n").toList])).flatten

def pbxPieces1 : List Piece :=
  [Piece.lit ("// !$*UTF8*$!\n\x7b\n\tarchiveVersion = 1;\n\tclasses = \x7b\n\t\x7d;\n\tobjectVersion = 56;\n\tobjects = \x7b\n\n/* Begin PBXBuildFile section */\n").toList]

def pbxPieces2 : List Piece :=
  [Piece.lit ("/* End PBXBuildFile section */\n\n/* Begin PBXFileReference section */\n").toList]

def pbxPieces3 (r : Run) : List Piece :=
  [Piece.lit ("\t\t").toList,
    Piece.ident r.productRefUuid,
    Piece.lit (" /* ").toList,
    Piece.lit projectName,
    Piece.lit (".app */ = \x7bisa = PBXFileReference; explicitFileType = wrapper.application; includeInIndex = 0; path = ").toList,
    Piece.lit projectName,
    Piece.lit (".app; sourceTree = BUILT_PRODUCTS_DIR; \x7d;\n/* End PBXFileReference section */\n\n/* Begin PBXFrameworksBuildPhase section */\n\t\t").toList,
    Piece.ident r.frameworksBuildPhaseUuid,
    Piece.lit (" /* Frameworks */ = \x7b\n\t\t\tisa = PBXFrameworksBuildPhase;\n\t\t\tbuildActionMask = 2147483647;\n\t\t\tfiles = (\n\t\t\t);\n\t\t\trunOnlyForDeploymentPostprocessing = 0;\n\t\t\x7d;\n/* End PBXFrameworksBuildPhase section */\n\n/* Begin PBXGroup section */\n\t\t").toList,
    Piece.ident r.mainGroupUuid,
    Piece.lit (" = \x7b\n\t\t\tisa = PBXGroup;\n\t\t\tchildren = (\n\t\t\t\t").toList,
    Piece.ident r.sourceGroupUuid,
    Piece.lit (" /* ").toList,
    Piece.lit projectName,
    Piece.lit (" */,\n\t\t\t\t").toList,
    Piece.ident r.productsGroupUuid,
    Piece.lit (" /* Products */,\n\t\t\t);\n\t\t\tsourceTree = \"<group>\";\n\t\t\x7d;\n\t\t").toList,
    Piece.ident r.productsGroupUuid,
    Piece.lit (" /* Products */ = \x7b\n\t\t\tisa = PBXGroup;\n\t\t\tchildren = (\n\t\t\t\t").toList,
    Piece.ident r.productRefUuid,
    Piece.lit (" /* ").toList,
    Piece.lit projectName,
    Piece.lit (".app */,\n\t\t\t);\n\t\t\tname = Products;\n\t\t\tsourceTree = \"<group>\";\n\t\t\x7d;\n\t\t").toList,
    Piece.ident r.sourceGroupUuid,
    Piece.lit (" /* ").toList,
    Piece.lit projectName,
    Piece.lit (" */ = \x7b\n\t\t\tisa = PBXGroup;\n\t\t\tchildren = (\n").toList]

def pbxPieces4 : List Piece :=
  [Piece.lit ("\t\t\t);\n\t\t\tpath = ").toList,
    Piece.lit projectName,
    Piece.lit (";\n\t\t\tsourceTree = \"<group>\";\n\t\t\x7d;\n/* End PBXGroup section */\n\n").toList]

def pbxTargetHeadPieces (r : Run) : List Piece :=
  [Piece.lit ("/* Begin PBXNativeTarget section */").toList,
    Piece.lit ("\n\t\t").toList,
    Piece.ident r.targetUuid,
    Piece.lit (" /* ").toList,
    Piece.lit projectName,
    Piece.lit (" */ = \x7b\n\t\t\tisa = PBXNativeTarget;\n\t\t\tbuildConfigurationList = ").toList]

def pbxPieces5 (r : Run) : List Piece :=
  [Piece.ident r.buildConfigListTargetUuid,
    Piece.lit (" /* Build configuration list for PBXNativeTarget \"").toList,
    Piece.lit projectName,
    Piece.lit ("\" */;\n\t\t\tbuildPhases = (\n\t\t\t\t").toList,
    Piece.ident r.sourceBuildPhaseUuid,
    Piece.lit (" /* Sources */,\n\t\t\t\t").toList,
    Piece.ident r.frameworksBuildPhaseUuid,
    Piece.lit (" /* Frameworks */,\n\t\t\t\t").toList,
    Piece.ident r.resourcesBuildPhaseUuid,
    Piece.lit (" /* Resources */,\n\t\t\t);\n\t\t\tbuildRules = (\n\t\t\t);\n\t\t\tdependencies = (\n\t\t\t);\n\t\t\tname = ").toList,
    Piece.lit projectName,
    Piece.lit (";\n\t\t\tproductName = ").toList,
    Piece.lit projectName,
    Piece.lit (";\n\t\t\tproductReference = ").toList,
    Piece.ident r.productRefUuid,
    Piece.lit (" /* ").toList,
    Piece.lit projectName,
    Piece.lit (".app */;\n\t\t\tproductType = \"com.apple.product-type.application\";\n\t\t\x7d;\n/* End PBXNativeTarget section */\n\n/* Begin PBXProject section */\n\t\t").toList,
    Piece.ident r.projectUuid,
    Piece.lit (" /* Project object */ = \x7b\n\t\t\tisa = PBXProject;\n\t\t\tattributes = \x7b\n\t\t\t\tBuildIndependentTargetsInParallel = 1;\n\t\t\t\tLastSwiftUpdateCheck = 1500;\n\t\t\t\tLastUpgradeCheck = 1500;\n\t\t\t\tTargetAttributes = \x7b\n\t\t\t\t\t").toList,
    Piece.ident r.targetUuid,
    Piece.lit (" = \x7b\n\t\t\t\t\t\tCreatedOnToolsVersion = 15.0;\n\t\t\t\t\t\x7d;\n\t\t\t\t\x7d;\n\t\t\t\x7d;\n\t\t\tbuildConfigurationList = ").toList,
    Piece.ident r.buildConfigListProjectUuid,
    Piece.lit (" /* Build configuration list for PBXProject \"").toList,
    Piece.lit projectName,
    Piece.lit ("\" */;\n\t\t\tcompatibilityVersion = \"Xcode 14.0\";\n\t\t\tdevelopmentRegion = en;\n\t\t\thasScannedForEncodings = 0;\n\t\t\tknownRegions = (\n\t\t\t\ten,\n\t\t\t\tBase,\n\t\t\t);\n\t\t\tmainGroup = ").toList,
    Piece.ident r.mainGroupUuid,
    Piece.lit (";\n\t\t\tproductRefGroup = ").toList,
    Piece.ident r.productsGroupUuid,
    Piece.lit (" /* Products */;\n\t\t\tprojectDirPath = \"\";\n\t\t\tprojectRoot = \"\";\n\t\t\ttargets = (\n\t\t\t\t").toList,
    Piece.ident r.targetUuid,
    Piece.lit (" /* ").toList,
    Piece.lit projectName,
    Piece.lit (" */,\n\t\t\t);\n\t\t\x7d;\n/* End PBXProject section */\n\n/* Begin PBXResourcesBuildPhase section */\n\t\t").toList,
    Piece.ident r.resourcesBuildPhaseUuid,
    Piece.lit (" /* Resources */ = \x7b\n\t\t\tisa = PBXResourcesBuildPhase;\n\t\t\tbuildActionMask = 2147483647;\n\t\t\tfiles = (\n\t\t\t);\n\t\t\trunOnlyForDeploymentPostprocessing = 0;\n\t\t\x7d;\n/* End PBXResourcesBuildPhase section */\n\n/* Begin PBXSourcesBuildPhase section */\n\t\t").toList,
    Piece.ident r.sourceBuildPhaseUuid,
    Piece.lit (" /* Sources */ = \x7b\n\t\t\tisa = PBXSourcesBuildPhase;\n\t\t\tbuildActionMask = 2147483647;\n\t\t\tfiles = (\n").toList]

def pbxPieces6 (r : Run) : List Piece :=
  [Piece.lit ("\t\t\t);\n\t\t\trunOnlyForDeploymentPostprocessing = 0;\n\t\t\x7d;\n/* End PBXSourcesBuildPhase section */\n\n/* Begin XCBuildConfiguration section */\n\t\t").toList,
    Piece.ident r.debugConfigProjectUuid,
    Piece.lit (" /* Debug */ = \x7b\n\t\t\tisa = XCBuildConfiguration;\n\t\t\tbuildSettings = \x7b\n\t\t\t\tALWAYS_SEARCH_USER_PATHS = NO;\n\t\t\t\tCLANG_ANALYZER_NONNULL = YES;\n\t\t\t\tCLANG_ANALYZER_NUMBER_OBJECT_CONVERSION = YES_AGGRESSIVE;\n\t\t\t\tCLANG_CXX_LANGUAGE_STANDARD = \"gnu++20\";\n\t\t\t\tCLANG_ENABLE_MODULES = YES;\n\t\t\t\tCLANG_ENABLE_OBJC_ARC = YES;\n\t\t\t\tCLANG_ENABLE_OBJC_WEAK = YES;\n\t\t\t\tCLANG_WARN_BLOCK_CAPTURE_AUTORELEASING = YES;\n\t\t\t\tCLANG_WARN_BOOL_CONVERSION = YES;\n\t\t\t\tCLANG_WARN_COMMA = YES;\n\t\t\t\tCLANG_WARN_CONSTANT_CONVERSION = YES;\n\t\t\t\tCLANG_WARN_DEPRECATED_OBJC_IMPLEMENTATIONS = YES;\n\t\t\t\tCLANG_WARN_DIRECT_OBJC_ISA_USAGE = YES_ERROR;\n\t\t\t\tCLANG_WARN_DOCUMENTATION_COMMENTS = YES;\n\t\t\t\tCLANG_WARN_EMPTY_BODY = YES;\n\t\t\t\tCLANG_WARN_ENUM_CONVERSION = YES;\n\t\t\t\tCLANG_WARN_INFINITE_RECURSION = YES;\n\t\t\t\tCLANG_WARN_INT_CONVERSION = YES;\n\t\t\t\tCLANG_WARN_NON_LITERAL_NULL_CONVERSION = YES;\n\t\t\t\tCLANG_WARN_OBJC_IMPLICIT_RETAIN_SELF = YES;\n\t\t\t\tCLANG_WARN_OBJC_LITERAL_CONVERSION = YES;\n\t\t\t\tCLANG_WARN_OBJC_ROOT_CLASS = YES_ERROR;\n\t\t\t\tCLANG_WARN_QUOTED_INCLUDE_IN_FRAMEWORK_HEADER = YES;\n\t\t\t\tCLANG_WARN_RANGE_LOOP_ANALYSIS = YES;\n\t\t\t\tCLANG_WARN_STRICT_PROTOTYPES = YES;\n\t\t\t\tCLANG_WARN_SUSPICIOUS_MOVE = YES;\n\t\t\t\tCLANG_WARN_UNGUARDED_AVAILABILITY = YES_AGGRESSIVE;\n\t\t\t\tCLANG_WARN_UNREACHABLE_CODE = YES;\n\t\t\t\tCLANG_WARN__DUPLICATE_METHOD_MATCH = YES;\n\t\t\t\tCOPY_PHASE_STRIP = NO;\n\t\t\t\tDEBUG_INFORMATION_FORMAT = dwarf;\n\t\t\t\tENABLE_STRICT_OBJC_MSGSEND = YES;\n\t\t\t\tENABLE_TESTABILITY = YES;\n\t\t\t\tENABLE_USER_SCRIPT_SANDBOXING = YES;\n\t\t\t\tGCC_C_LANGUAGE_STANDARD = gnu17;\n\t\t\t\tGCC_DYNAMIC_NO_PIC = NO;\n\t\t\t\tGCC_NO_COMMON_BLOCKS = YES;\n\t\t\t\tGCC_OPTIMIZATION_LEVEL = 0;\n\t\t\t\tGCC_PREPROCESSOR_DEFINITIONS = (\n\t\t\t\t\t\"DEBUG=1\",\n\t\t\t\t\t\"$(inherited)\",\n\t\t\t\t);\n\t\t\t\tGCC_WARN_64_TO_32_BIT_CONVERSION = YES;\n\t\t\t\tGCC_WARN_ABOUT_RETURN_TYPE = YES_ERROR;\n\t\t\t\tGCC_WARN_UNDECLARED_SELECTOR = YES;\n\t\t\t\tGCC_WARN_UNINITIALIZED_AUTOS = YES_AGGRESSIVE;\n\t\t\t\tGCC_WARN_UNUSED_FUNCTION = YES;\n\t\t\t\tGCC_WARN_UNUSED_VARIABLE = YES;\n\t\t\t\tIPHONEOS_DEPLOYMENT_TARGET = 16.0;\n\t\t\t\tMTL_ENABLE_DEBUG_INFO = INCLUDE_SOURCE;\n\t\t\t\tMTL_FAST_MATH = YES;\n\t\t\t\tONLY_ACTIVE_ARCH = YES;\n\t\t\t\tSDKROOT = iphoneos;\n\t\t\t\tSWIFT_ACTIVE_COMPILATION_CONDITIONS = \"DEBUG $(inherited)\";\n\t\t\t\tSWIFT_OPTIMIZATION_LEVEL = \"-Onone\";\n\t\t\t\x7d;\n\t\t\tname = Debug;\n\t\t\x7d;\n\t\t").toList,
    Piece.ident r.releaseConfigProjectUuid,
    Piece.lit (" /* Release */ = \x7b\n\t\t\tisa = XCBuildConfiguration;\n\t\t\tbuildSettings = \x7b\n\t\t\t\tALWAYS_SEARCH_USER_PATHS = NO;\n\t\t\t\tCLANG_ANALYZER_NONNULL = YES;\n\t\t\t\tCLANG_ANALYZER_NUMBER_OBJECT_CONVERSION = YES_AGGRESSIVE;\n\t\t\t\tCLANG_CXX_LANGUAGE_STANDARD = \"gnu++20\";\n\t\t\t\tCLANG_ENABLE_MODULES = YES;\n\t\t\t\tCLANG_ENABLE_OBJC_ARC = YES;\n\t\t\t\tCLANG_ENABLE_OBJC_WEAK = YES;\n\t\t\t\tCLANG_WARN_BLOCK_CAPTURE_AUTORELEASING = YES;\n\t\t\t\tCLANG_WARN_BOOL_CONVERSION = YES;\n\t\t\t\tCLANG_WARN_COMMA = YES;\n\t\t\t\tCLANG_WARN_CONSTANT_CONVERSION = YES;\n\t\t\t\tCLANG_WARN_DEPRECATED_OBJC_IMPLEMENTATIONS = YES;\n\t\t\t\tCLANG_WARN_DIRECT_OBJC_ISA_USAGE = YES_ERROR;\n\t\t\t\tCLANG_WARN_DOCUMENTATION_COMMENTS = YES;\n\t\t\t\tCLANG_WARN_EMPTY_BODY = YES;\n\t\t\t\tCLANG_WARN_ENUM_CONVERSION = YES;\n\t\t\t\tCLANG_WARN_INFINITE_RECURSION = YES;\n\t\t\t\tCLANG_WARN_INT_CONVERSION = YES;\n\t\t\t\tCLANG_WARN_NON_LITERAL_NULL_CONVERSION = YES;\n\t\t\t\tCLANG_WARN_OBJC_IMPLICIT_RETAIN_SELF = YES;\n\t\t\t\tCLANG_WARN_OBJC_LITERAL_CONVERSION = YES;\n\t\t\t\tCLANG_WARN_OBJC_ROOT_CLASS = YES_ERROR;\n\t\t\t\tCLANG_WARN_QUOTED_INCLUDE_IN_FRAMEWORK_HEADER = YES;\n\t\t\t\tCLANG_WARN_RANGE_LOOP_ANALYSIS = YES;\n\t\t\t\tCLANG_WARN_STRICT_PROTOTYPES = YES;\n\t\t\t\tCLANG_WARN_SUSPICIOUS_MOVE = YES;\n\t\t\t\tCLANG_WARN_UNGUARDED_AVAILABILITY = YES_AGGRESSIVE;\n\t\t\t\tCLANG_WARN_UNREACHABLE_CODE = YES;\n\t\t\t\tCLANG_WARN__DUPLICATE_METHOD_MATCH = YES;\n\t\t\t\tCOPY_PHASE_STRIP = NO;\n\t\t\t\tDEBUG_INFORMATION_FORMAT = \"dwarf-with-dsym\";\n\t\t\t\tENABLE_NS_ASSERTIONS = NO;\n\t\t\t\tENABLE_STRICT_OBJC_MSGSEND = YES;\n\t\t\t\tENABLE_USER_SCRIPT_SANDBOXING = YES;\n\t\t\t\tGCC_C_LANGUAGE_STANDARD = gnu17;\n\t\t\t\tGCC_NO_COMMON_BLOCKS = YES;\n\t\t\t\tGCC_WARN_64_TO_32_BIT_CONVERSION = YES;\n\t\t\t\tGCC_WARN_ABOUT_RETURN_TYPE = YES_ERROR;\n\t\t\t\tGCC_WARN_UNDECLARED_SELECTOR = YES;\n\t\t\t\tGCC_WARN_UNINITIALIZED_AUTOS = YES_AGGRESSIVE;\n\t\t\t\tGCC_WARN_UNUSED_FUNCTION = YES;\n\t\t\t\tGCC_WARN_UNUSED_VARIABLE = YES;\n\t\t\t\tIPHONEOS_DEPLOYMENT_TARGET = 16.0;\n\t\t\t\tMTL_ENABLE_DEBUG_INFO = NO;\n\t\t\t\tMTL_FAST_MATH = YES;\n\t\t\t\tSDKROOT = iphoneos;\n\t\t\t\tSWIFT_COMPILATION_MODE = wholemodule;\n\t\t\t\tVALIDATE_PRODUCT = YES;\n\t\t\t\x7d;\n\t\t\tname = Release;\n\t\t\x7d;\n\t\t").toList,
    Piece.ident r.debugConfigTargetUuid,
    Piece.lit (" /* Debug */ = \x7b\n\t\t\tisa = XCBuildConfiguration;\n\t\t\tbuildSettings = \x7b\n\t\t\t\tASSETCATALOG_COMPILER_APPICON_NAME = AppIcon;\n\t\t\t\tASSETCATALOG_COMPILER_GLOBAL_ACCENT_COLOR_NAME = AccentColor;\n\t\t\t\tCODE_SIGN_STYLE = Automatic;\n\t\t\t\tCURRENT_PROJECT_VERSION = 1;\n\t\t\t\tDEVELOPMENT_ASSET_PATHS = \"\";\n\t\t\t\tDEVELOPMENT_TEAM = \"\";\n\t\t\t\tENABLE_PREVIEWS = YES;\n\t\t\t\tGENERATE_INFOPLIST_FILE = NO;\n\t\t\t\tINFOPLIST_FILE = ").toList,
    Piece.lit projectName,
    Piece.lit ("/Resources/Info.plist;\n\t\t\t\tINFOPLIST_KEY_UIApplicationSceneManifest_Generation = YES;\n\t\t\t\tINFOPLIST_KEY_UIApplicationSupportsIndirectInputEvents = YES;\n\t\t\t\tINFOPLIST_KEY_UILaunchScreen_Generation = YES;\n\t\t\t\tINFOPLIST_KEY_UISupportedInterfaceOrientations = \"UIInterfaceOrientationPortrait UIInterfaceOrientationLandscapeLeft UIInterfaceOrientationLandscapeRight\";\n\t\t\t\tINFOPLIST_KEY_UISupportedInterfaceOrientations_iPad = \"UIInterfaceOrientationPortrait UIInterfaceOrientationPortraitUpsideDown UIInterfaceOrientationLandscapeLeft UIInterfaceOrientationLandscapeRight\";\n\t\t\t\tIPHONEOS_DEPLOYMENT_TARGET = 16.0;\n\t\t\t\tLD_RUNPATH_SEARCH_PATHS = (\n\t\t\t\t\t\"$(inherited)\",\n\t\t\t\t\t\"@executable_path/Frameworks\",\n\t\t\t\t);\n\t\t\t\tMARKETING_VERSION = 1.0.0;\n\t\t\t\tPRODUCT_BUNDLE_IDENTIFIER = ").toList,
    Piece.lit bundleId,
    Piece.lit (";\n\t\t\t\tPRODUCT_NAME = \"$(TARGET_NAME)\";\n\t\t\t\tSWIFT_EMIT_LOC_STRINGS = YES;\n\t\t\t\tSWIFT_VERSION = 5.0;\n\t\t\t\tTARGETED_DEVICE_FAMILY = \"1,2\";\n\t\t\t\x7d;\n\t\t\tname = Debug;\n\t\t\x7d;\n\t\t").toList,
    Piece.ident r.releaseConfigTargetUuid,
    Piece.lit (" /* Release */ = \x7b\n\t\t\tisa = XCBuildConfiguration;\n\t\t\tbuildSettings = \x7b\n\t\t\t\tASSETCATALOG_COMPILER_APPICON_NAME = AppIcon;\n\t\t\t\tASSETCATALOG_COMPILER_GLOBAL_ACCENT_COLOR_NAME = AccentColor;\n\t\t\t\tCODE_SIGN_STYLE = Automatic;\n\t\t\t\tCURRENT_PROJECT_VERSION = 1;\n\t\t\t\tDEVELOPMENT_ASSET_PATHS = \"\";\n\t\t\t\tDEVELOPMENT_TEAM = \"\";\n\t\t\t\tENABLE_PREVIEWS = YES;\n\t\t\t\tGENERATE_INFOPLIST_FILE = NO;\n\t\t\t\tINFOPLIST_FILE = ").toList,
    Piece.lit projectName,
    Piece.lit ("/Resources/Info.plist;\n\t\t\t\tINFOPLIST_KEY_UIApplicationSceneManifest_Generation = YES;\n\t\t\t\tINFOPLIST_KEY_UIApplicationSupportsIndirectInputEvents = YES;\n\t\t\t\tINFOPLIST_KEY_UILaunchScreen_Generation = YES;\n\t\t\t\tINFOPLIST_KEY_UISupportedInterfaceOrientations = \"UIInterfaceOrientationPortrait UIInterfaceOrientationLandscapeLeft UIInterfaceOrientationLandscapeRight\";\n\t\t\t\tINFOPLIST_KEY_UISupportedInterfaceOrientations_iPad = \"UIInterfaceOrientationPortrait UIInterfaceOrientationPortraitUpsideDown UIInterfaceOrientationLandscapeLeft UIInterfaceOrientationLandscapeRight\";\n\t\t\t\tIPHONEOS_DEPLOYMENT_TARGET = 16.0;\n\t\t\t\tLD_RUNPATH_SEARCH_PATHS = (\n\t\t\t\t\t\"$(inherited)\",\n\t\t\t\t\t\"@executable_path/Frameworks\",\n\t\t\t\t);\n\t\t\t\tMARKETING_VERSION = 1.0.0;\n\t\t\t\tPRODUCT_BUNDLE_IDENTIFIER = ").toList,
    Piece.lit bundleId,
    Piece.lit (";\n\t\t\t\tPRODUCT_NAME = \"$(TARGET_NAME)\";\n\t\t\t\tSWIFT_EMIT_LOC_STRINGS = YES;\n\t\t\t\tSWIFT_VERSION = 5.0;\n\t\t\t\tTARGETED_DEVICE_FAMILY = \"1,2\";\n\t\t\t\x7d;\n\t\t\tname = Release;\n\t\t\x7d;\n/* End XCBuildConfiguration section */\n\n/* Begin XCConfigurationList section */\n\t\t").toList,
    Piece.ident r.buildConfigListProjectUuid,
    Piece.lit (" /* Build configuration list for PBXProject \"").toList,
    Piece.lit projectName,
    Piece.lit ("\" */ = \x7b\n\t\t\tisa = XCConfigurationList;\n\t\t\tbuildConfigurations = (\n\t\t\t\t").toList,
    Piece.ident r.debugConfigProjectUuid,
    Piece.lit (" /* Debug */,\n\t\t\t\t").toList,
    Piece.ident r.releaseConfigProjectUuid,
    Piece.lit (" /* Release */,\n\t\t\t);\n\t\t\tdefaultConfigurationIsVisible = 0;\n\t\t\tdefaultConfigurationName = Release;\n\t\t\x7d;\n\t\t").toList,
    Piece.ident r.buildConfigListTargetUuid,
    Piece.lit (" /* Build configuration list for PBXNativeTarget \"").toList,
    Piece.lit projectName,
    Piece.lit ("\" */ = \x7b\n\t\t\tisa = XCConfigurationList;\n\t\t\tbuildConfigurations = (\n\t\t\t\t").toList,
    Piece.ident r.debugConfigTargetUuid,
    Piece.lit (" /* Debug */,\n\t\t\t\t").toList,
    Piece.ident r.releaseConfigTargetUuid,
    Piece.lit (" /* Release */,\n\t\t\t);\n\t\t\tdefaultConfigurationIsVisible = 0;\n\t\t\tdefaultConfigurationName = Release;\n\t\t\x7d;\n/* End XCConfigurationList section */\n\t\x7d;\n\trootObject = ").toList,
    Piece.ident r.projectUuid,
    Piece.lit (" /* Project object */;\n\x7d\n").toList]

def pbxprojPieces (r : Run) (files : List (List Char)) : List Piece :=
  pbxPieces1
    ++ buildFilesPieces r files
    ++ pbxPieces2
    ++ fileRefsPieces r files
    ++ pbxPieces3 r
    ++ sourceChildrenPieces r files
    ++ pbxPieces4
    ++ pbxTargetHeadPieces r
    ++ pbxPieces5 r
    ++ sourcesFilesPieces r files
    ++ pbxPieces6 r

def schPieces1 : List Piece :=
  [Piece.lit ("<?xml version=\"1.0\" encoding=\"UTF-8\"?>\n<Scheme LastUpgradeVersion = \"1500\" version = \"1.7\">\n   <BuildAction parallelizeBuildables = \"YES\" buildImplicitDependencies = \"YES\">\n      <BuildActionEntries>\n         <BuildActionEntry buildForTesting = \"YES\" buildForRunning = \"YES\" buildForProfiling = \"YES\" buildForArchiving = \"YES\" buildForAnalyzing = \"YES\">\n            <BuildableReference BuildableIdentifier = \"primary\" ").toList]

def schBlueprintPieces (r : Run) : List Piece :=
  [Piece.lit ("BlueprintIdentifier = \"").toList,
    Piece.ident r.targetUuid,
    Piece.lit ("\" BuildableName = \"").toList]

def schPieces2 : List Piece :=
  [Piece.lit projectName,
    Piece.lit (".app\" BlueprintName = \"").toList,
    Piece.lit projectName,
    Piece.lit ("\" ReferencedContainer = \"container:").toList,
    Piece.lit projectName,
    Piece.lit (".xcodeproj\"></BuildableReference>\n         </BuildActionEntry>\n      </BuildActionEntries>\n   </BuildAction>\n   <TestAction buildConfiguration = \"Debug\" selectedDebuggerIdentifier = \"Xcode.DebuggerFoundation.Debugger.LLDB\" selectedLauncherIdentifier = \"Xcode.DebuggerFoundation.Launcher.LLDB\" shouldUseLaunchSchemeArgsEnv = \"YES\">\n      <Testables></Testables>\n   </TestAction>\n   <LaunchAction buildConfiguration = \"Debug\" selectedDebuggerIdentifier = \"Xcode.DebuggerFoundation.Debugger.LLDB\" selectedLauncherIdentifier = \"Xcode.DebuggerFoundation.Launcher.LLDB\" launchStyle = \"0\" useCustomWorkingDirectory = \"NO\" ignoresPersistentStateOnLaunch = \"NO\" debugDocumentVersioning = \"YES\" debugServiceExtension = \"internal\" allowLocationSimulation = \"YES\">\n      <BuildableProductRunnable runnableDebuggingMode = \"0\">\n         <BuildableReference BuildableIdentifier = \"primary\" ").toList]

def schPieces3 : List Piece :=
  [Piece.lit projectName,
    Piece.lit (".app\" BlueprintName = \"").toList,
    Piece.lit projectName,
    Piece.lit ("\" ReferencedContainer = \"container:").toList,
    Piece.lit projectName,
    Piece.lit (".xcodeproj\"></BuildableReference>\n      </BuildableProductRunnable>\n   </LaunchAction>\n   <ProfileAction buildConfiguration = \"Release\" shouldUseLaunchSchemeArgsEnv = \"YES\" savedToolIdentifier = \"\" useCustomWorkingDirectory = \"NO\" debugDocumentVersioning = \"YES\">\n      <BuildableProductRunnable runnableDebuggingMode = \"0\">\n         <BuildableReference BuildableIdentifier = \"primary\" ").toList]

def schPieces4 : List Piece :=
  [Piece.lit projectName,
    Piece.lit (".app\" BlueprintName = \"").toList,
    Piece.lit projectName,
    Piece.lit ("\" ReferencedContainer = \"container:").toList,
    Piece.lit projectName,
    Piece.lit (".xcodeproj\"></BuildableReference>\n      </BuildableProductRunnable>\n   </ProfileAction>\n   <AnalyzeAction buildConfiguration = \"Debug\"></AnalyzeAction>\n   <ArchiveAction buildConfiguration = \"Release\" revealArchiveInOrganizer = \"YES\"></ArchiveAction>\n</Scheme>\n").toList]

def schemePieces (r : Run) : List Piece :=
  schPieces1
    ++ schBlueprintPieces r
    ++ schPieces2
    ++ schBlueprintPieces r
    ++ schPieces3
    ++ schBlueprintPieces r
    ++ schPieces4

/-- The rendered `project.pbxproj` contents for one run. -/
def pbxprojText (r : Run) (files : List (List Char)) : List Char :=
  flat (pbxprojPieces r files)

/-- The rendered `.xcscheme` contents for one run. -/
def schemeText (r : Run) : List Char :=
  flat (schemePieces r)

/-- Forget the value of an identifier piece, keeping everything else. -/
def eraseIdent : Piece → Piece
  | .ident _ => Piece.ident []
  | p => p

/-- The file-derived interpolations (base names and relative paths) of a
piece list, in rendering order. -/
def interpNames (ps : List Piece) : List (List Char) :=
  ps.filterMap (fun p => match p with | .name s => some s | _ => none)

/- ### Group children (claim C7) -/

/-- The rendered group-child entry for one discovered file. -/
def childEntry (r : Run) (fp : List Char) : List Char :=
  ("\t\t\t\t").toList ++ r.fileUuid fp ++ (" /* ").toList ++ basename fp
    ++ (" */,\n").toList

/-- The rendered fixed `Info.plist` group-child entry. -/
def infoChildEntry (r : Run) : List Char :=
  ("\t\t\t\t").toList ++ r.infoPlistUuid ++ (" /* Info.plist */,\n").toList

/-- A concrete identifier assignment used to instantiate theorems. -/
def runDemo : Run where
  projectUuid := ("ID01").toList
  mainGroupUuid := ("ID02").toList
  sourceGroupUuid := ("ID03").toList
  targetUuid := ("ID04").toList
  sourceBuildPhaseUuid := ("ID05").toList
  resourcesBuildPhaseUuid := ("ID06").toList
  frameworksBuildPhaseUuid := ("ID07").toList
  buildConfigListProjectUuid := ("ID08").toList
  buildConfigListTargetUuid := ("ID09").toList
  debugConfigProjectUuid := ("ID10").toList
  releaseConfigProjectUuid := ("ID11").toList
  debugConfigTargetUuid := ("ID12").toList
  releaseConfigTargetUuid := ("ID13").toList
  productRefUuid := ("ID14").toList
  productsGroupUuid := ("ID15").toList
  infoPlistUuid := ("ID16").toList
  fileUuid := fun fp => ("F-").toList ++ fp
  buildFileUuid := fun fp => ("B-").toList ++ fp

/- ### Identifier uniqueness and cross-references (claim C4) -/

/-- Use the `DecidableEq`-derived token equality test throughout the
identifier bookkeeping below, so that occurrence counts line up with the
library lemmas about `Nodup` and `Perm` (it decides the same equality as
the structural instance). -/
@[reducible] instance (priority := 2000) tokenBEq : BEq (List Char) :=
  instBEqOfDecidableEq

/-- The identifier interpolations of a piece list, in rendering order. -/
def idPieces (ps : List Piece) : List (List Char) :=
  ps.filterMap (fun p => match p with | .ident s => some s | _ => none)

/-- The identifiers minted by one run, in the order of the `gen_uuid()`
calls: the sixteen fixed project-level identifiers, then `file_uuids`,
then `build_file_uuids`. -/
def mintedIds (r : Run) (files : List (List Char)) : List (List Char) :=
  [r.projectUuid, r.mainGroupUuid, r.sourceGroupUuid, r.targetUuid,
    r.sourceBuildPhaseUuid, r.resourcesBuildPhaseUuid, r.frameworksBuildPhaseUuid,
    r.buildConfigListProjectUuid, r.buildConfigListTargetUuid,
    r.debugConfigProjectUuid, r.releaseConfigProjectUuid,
    r.debugConfigTargetUuid, r.releaseConfigTargetUuid,
    r.productRefUuid, r.productsGroupUuid, r.infoPlistUuid]
    ++ files.map r.fileUuid ++ files.map r.buildFileUuid

/-- The identifiers at definition sites in the rendered descriptor, in
section order: `PBXBuildFile` entries, `PBXFileReference` entries (per-file
references, `Info.plist`, the product), the frameworks phase, the three
groups, the native target, the project object, the resources and sources
phases, the four build configurations and the two configuration lists. -/
def definedIds (r : Run) (files : List (List Char)) : List (List Char) :=
  files.map r.buildFileUuid
    ++ files.map r.fileUuid ++ [r.infoPlistUuid, r.productRefUuid]
    ++ [r.frameworksBuildPhaseUuid]
    ++ [r.mainGroupUuid, r.productsGroupUuid, r.sourceGroupUuid]
    ++ [r.targetUuid]
    ++ [r.projectUuid]
    ++ [r.resourcesBuildPhaseUuid]
    ++ [r.sourceBuildPhaseUuid]
    ++ [r.debugConfigProjectUuid, r.releaseConfigProjectUuid,
      r.debugConfigTargetUuid, r.releaseConfigTargetUuid]
    ++ [r.buildConfigListProjectUuid, r.buildConfigListTargetUuid]

/-- The identifiers at cross-reference sites in the rendered descriptor, in
section order: `fileRef =` attributes of the build-file entries, the main
group's children, the Products group's child, the source group's children,
the native target's configuration list, build phases and product reference,
the project object's target attribute, configuration list, main group,
product-reference group and target list, the sources phase's members, the
two configuration lists' members, and `rootObject`. -/
def referencedIds (r : Run) (files : List (List Char)) : List (List Char) :=
  files.map r.fileUuid
    ++ [r.sourceGroupUuid, r.productsGroupUuid]
    ++ [r.productRefUuid]
    ++ files.map r.fileUuid ++ [r.infoPlistUuid]
    ++ [r.buildConfigListTargetUuid, r.sourceBuildPhaseUuid,
      r.frameworksBuildPhaseUuid, r.resourcesBuildPhaseUuid, r.productRefUuid]
    ++ [r.targetUuid, r.buildConfigListProjectUuid, r.mainGroupUuid,
      r.productsGroupUuid, r.targetUuid]
    ++ files.map r.buildFileUuid
    ++ [r.debugConfigProjectUuid, r.releaseConfigProjectUuid]
    ++ [r.debugConfigTargetUuid, r.releaseConfigTargetUuid]
    ++ [r.projectUuid]

theorem replAux_skip (old new : List Char) :
    ∀ (l : List Char) (k : Nat), replAux old new l k = replAux old new (l.drop k) 0 := by
  intro l
  induction l with
  | nil => intro k; cases k <;> rfl
  | cons c r ih =>
    intro k
    cases k with
    | zero => rfl
    | succ k => simpa [replAux] using ih k

theorem repl_cons (old new : List Char) (c : Char) (r : List Char) :
    repl old new (c :: r) =
      if old <+: (c :: r) ∧ old ≠ [] then
        new ++ repl old new (r.drop (old.length - 1))
      else
        c :: repl old new r := by
  by_cases h : old <+: (c :: r) ∧ old ≠ []
  · simp [repl, replAux, h, replAux_skip]
  · simp [repl, replAux, h]

theorem splitSubAux_skip (old : List Char) :
    ∀ (l : List Char) (k : Nat), splitSubAux old l k = splitSubAux old (l.drop k) 0 := by
  intro l
  induction l with
  | nil => intro k; cases k <;> rfl
  | cons c r ih =>
    intro k
    cases k with
    | zero => rfl
    | succ k => simpa [splitSubAux] using ih k

theorem splitSub_cons (old : List Char) (c : Char) (r : List Char) :
    splitSub old (c :: r) =
      if old <+: (c :: r) ∧ old ≠ [] then
        [] :: splitSub old (r.drop (old.length - 1))
      else
        match splitSub old r with
        | [] => [[c]]
        | s :: ss => (c :: s) :: ss := by
  by_cases h : old <+: (c :: r) ∧ old ≠ []
  · simp [splitSub, splitSubAux, h, splitSubAux_skip]
  · simp [splitSub, splitSubAux, h]

/-- Induction principle following the greedy scan of `repl` and `splitSub`. -/
theorem scanInduction (o : List Char) (P : List Char → Prop)
    (h0 : P [])
    (hmatch : ∀ c r, o <+: (c :: r) → P (r.drop (o.length - 1)) → P (c :: r))
    (hskip : ∀ c r, ¬ o <+: (c :: r) → P r → P (c :: r)) :
    ∀ l, P l := by
  have key : ∀ n l, l.length ≤ n → P l := by
    intro n
    induction n with
    | zero =>
      intro l hl
      have : l = [] := List.eq_nil_of_length_eq_zero (Nat.le_zero.mp hl)
      exact this ▸ h0
    | succ n ih =>
      intro l hl
      match l with
      | [] => exact h0
      | c :: r =>
        by_cases hm : o <+: (c :: r)
        · refine hmatch c r hm (ih _ ?_)
          have := List.length_drop (o.length - 1) r
          simp only [List.length_cons] at hl
          omega
        · refine hskip c r hm (ih r ?_)
          simp only [List.length_cons] at hl
          omega
  exact fun l => key l.length l le_rfl

theorem splitSub_ne_nil (old : List Char) (l : List Char) : splitSub old l ≠ [] := by
  induction l using scanInduction (o := old) with
  | h0 => simp [splitSub, splitSubAux]
  | hmatch c r hpre ih =>
    rw [splitSub_cons]
    by_cases h : old <+: (c :: r) ∧ old ≠ []
    · simp [h]
    · simp only [if_neg h]
      match splitSub old r with
      | [] => simp
      | s :: ss => simp
  | hskip c r hpre ih =>
    rw [splitSub_cons]
    have h : ¬ (old <+: (c :: r) ∧ old ≠ []) := fun hh => hpre hh.1
    simp only [if_neg h]
    match splitSub old r with
    | [] => simp
    | s :: ss => simp

theorem joinWith_cons_head (sep : List Char) (c : Char) (s : List Char)
    (ss : List (List Char)) :
    joinWith sep ((c :: s) :: ss) = c :: joinWith sep (s :: ss) := by
  cases ss <;> simp [joinWith]

/-- Rejoining the scan's segments with the pattern recovers the input. -/
theorem joinWith_splitSub (old : List Char) (hold : old ≠ []) (l : List Char) :
    joinWith old (splitSub old l) = l := by
  induction l using scanInduction (o := old) with
  | h0 => simp [splitSub, splitSubAux, joinWith]
  | hmatch c r hpre ih =>
    rw [splitSub_cons, if_pos ⟨hpre, hold⟩]
    have hne := splitSub_ne_nil old (r.drop (old.length - 1))
    match hsp : splitSub old (r.drop (old.length - 1)) with
    | [] => exact absurd hsp hne
    | s :: ss =>
      rw [hsp] at ih
      have hjoin : joinWith old ([] :: s :: ss) = old ++ joinWith old (s :: ss) := by
        simp [joinWith]
      rw [hjoin, ih]
      have hx : c :: r = old ++ (c :: r).drop old.length :=
        (List.prefix_iff_eq_append.mp hpre).symm
      have hdrop : (c :: r).drop old.length = r.drop (old.length - 1) := by
        match old, hold with
        | o :: os, _ => simp
      rw [hdrop] at hx
      exact hx.symm
  | hskip c r hpre ih =>
    rw [splitSub_cons]
    have h : ¬ (old <+: (c :: r) ∧ old ≠ []) := fun hh => hpre hh.1
    rw [if_neg h]
    have hne := splitSub_ne_nil old r
    match hsp : splitSub old r with
    | [] => exact absurd hsp hne
    | s :: ss =>
      rw [hsp] at ih
      rw [joinWith_cons_head, ih]

/-- The substitution output is the scan's segments rejoined with `new`. -/
theorem repl_eq_joinWith (old new : List Char) (hold : old ≠ []) (l : List Char) :
    repl old new l = joinWith new (splitSub old l) := by
  induction l using scanInduction (o := old) with
  | h0 => simp [repl, replAux, splitSub, splitSubAux, joinWith]
  | hmatch c r hpre ih =>
    rw [repl_cons, splitSub_cons, if_pos ⟨hpre, hold⟩, if_pos ⟨hpre, hold⟩]
    have hne := splitSub_ne_nil old (r.drop (old.length - 1))
    match hsp : splitSub old (r.drop (old.length - 1)) with
    | [] => exact absurd hsp hne
    | s :: ss =>
      rw [hsp] at ih
      rw [ih]
      simp [joinWith]
  | hskip c r hpre ih =>
    rw [repl_cons, splitSub_cons]
    have h : ¬ (old <+: (c :: r) ∧ old ≠ []) := fun hh => hpre hh.1
    rw [if_neg h, if_neg h]
    have hne := splitSub_ne_nil old r
    match hsp : splitSub old r with
    | [] => exact absurd hsp hne
    | s :: ss =>
      rw [hsp] at ih
      rw [ih, joinWith_cons_head]

/-- When the pattern occurs nowhere, the scan yields a single segment. -/
theorem splitSub_no_occurrence (old : List Char) (l : List Char)
    (h : ¬ old <:+: l) : splitSub old l = [l] := by
  induction l using scanInduction (o := old) with
  | h0 => simp [splitSub, splitSubAux]
  | hmatch c r hpre ih => exact absurd hpre.isInfix h
  | hskip c r hpre ih =>
    have hr : ¬ old <:+: r := fun hh => h (List.infix_cons hh)
    rw [splitSub_cons]
    have hg : ¬ (old <+: (c :: r) ∧ old ≠ []) := fun hh => hpre hh.1
    rw [if_neg hg, ih hr]

/-- When the pattern occurs nowhere, the substitution is the identity. -/
theorem repl_no_occurrence (old new : List Char) (hold : old ≠ []) (l : List Char)
    (h : ¬ old <:+: l) : repl old new l = l := by
  rw [repl_eq_joinWith old new hold, splitSub_no_occurrence old l h]
  rfl

/-- When the pattern occurs somewhere, the scan finds at least one match. -/
theorem two_le_splitSub_length (old : List Char) (hold : old ≠ []) (l : List Char)
    (h : old <:+: l) : 2 ≤ (splitSub old l).length := by
  induction l using scanInduction (o := old) with
  | h0 =>
    exfalso
    exact hold (List.eq_nil_of_infix_nil h)
  | hmatch c r hpre ih =>
    rw [splitSub_cons, if_pos ⟨hpre, hold⟩]
    have hne := splitSub_ne_nil old (r.drop (old.length - 1))
    have hpos : 0 < (splitSub old (r.drop (old.length - 1))).length :=
      List.length_pos.mpr hne
    simp only [List.length_cons]
    omega
  | hskip c r hpre ih =>
    have hr : old <:+: r := by
      rcases List.infix_cons_iff.mp h with hp | hi
      · exact absurd hp hpre
      · exact hi
    rw [splitSub_cons]
    have hg : ¬ (old <+: (c :: r) ∧ old ≠ []) := fun hh => hpre hh.1
    rw [if_neg hg]
    have := ih hr
    have hne := splitSub_ne_nil old r
    match hsp : splitSub old r with
    | [] => exact absurd hsp hne
    | s :: ss =>
      rw [hsp] at this
      simpa using this

theorem fixAnchor_ne_nil : fixAnchor ≠ [] := by decide

/-- Claim C1: if the descriptor contains the literal anchor line, one
application of the patch splits the contents at the (greedily scanned)
occurrences of the anchor and rejoins the unchanged segments with the anchor
followed by the inserted three-entry block: the block appears immediately
after each occurrence of the anchor and every byte outside the inserted
blocks is unchanged. -/
theorem patch_inserts_block_after_each_anchor (content : List Char)
    (h : fixAnchor <:+: content) :
    ∃ parts : List (List Char), 2 ≤ parts.length ∧
      joinWith fixAnchor parts = content ∧
      patchContent content = joinWith (fixAnchor ++ fixInsert) parts := by
  refine ⟨splitSub fixAnchor content, ?_, ?_, ?_⟩
  · exact two_le_splitSub_length fixAnchor fixAnchor_ne_nil content h
  · exact joinWith_splitSub fixAnchor fixAnchor_ne_nil content
  · exact repl_eq_joinWith fixAnchor (fixAnchor ++ fixInsert) fixAnchor_ne_nil content

/-- Concrete instance of C1 on a small descriptor containing the anchor. -/
theorem patch_inserts_block_after_each_anchor_witness :
    ∃ parts : List (List Char), 2 ≤ parts.length ∧
      joinWith fixAnchor parts = ("AB").toList ++ fixAnchor ++ ("CD").toList ∧
      patchContent (("AB").toList ++ fixAnchor ++ ("CD").toList) =
        joinWith (fixAnchor ++ fixInsert) parts :=
  patch_inserts_block_after_each_anchor
    (("AB").toList ++ fixAnchor ++ ("CD").toList) (by decide)

/-- Claim C2: on a descriptor that does not contain the anchor, the patch
run leaves the contents byte-for-byte unchanged and still reports the
success message (the script has no failure signal for zero substitutions). -/
theorem patch_noop_without_anchor_reports_success (content : List Char)
    (h : ¬ fixAnchor <:+: content) :
    fixScriptRun content = (content, fixSuccessMessage) := by
  unfold fixScriptRun patchContent
  rw [repl_no_occurrence fixAnchor (fixAnchor ++ fixInsert) fixAnchor_ne_nil content h]

/-- Concrete instance of C2 on contents lacking the anchor. -/
theorem patch_noop_without_anchor_reports_success_witness :
    fixScriptRun (("no anchor here").toList) =
      (("no anchor here").toList, fixSuccessMessage) :=
  patch_noop_without_anchor_reports_success (("no anchor here").toList) (by decide)

/- ### Idempotence analysis of the patch (claim C10)

Whether a match exists at a position inside a block depends only on the
first `old.length` characters of the suffix there; the lemmas below make
the greedy scan of the patched file tractable. -/

/-- A prefix test only reads the first `A.length` characters, so any
continuation beyond a block at least that long is irrelevant. -/
theorem prefix_append_irrel (A u T : List Char) (h : A.length ≤ u.length) :
    A <+: u ++ T ↔ A <+: u := by
  rw [List.prefix_iff_eq_take, List.prefix_iff_eq_take, List.take_append_of_le_length h]

/-- The scan beginning at the pattern itself matches and continues after it. -/
theorem splitSub_anchor_head (A : List Char) (hA : A ≠ []) (z : List Char) :
    splitSub A (A ++ z) = [] :: splitSub A z := by
  match A, hA with
  | a :: A', _ =>
    have hpre : a :: A' <+: a :: (A' ++ z) := by
      rw [← List.cons_append]
      exact List.prefix_append _ _
    rw [List.cons_append, splitSub_cons, if_pos ⟨hpre, by simp⟩]
    simp only [List.length_cons, Nat.add_sub_cancel]
    rw [List.drop_left]

/-- The scan walks through a block none of whose positions start a match,
extending the first segment found afterwards. -/
theorem splitSub_free_append (A : List Char) :
    ∀ (u y : List Char), (∀ j, j < u.length → ¬ A <+: (u.drop j ++ y)) →
      ∀ s ss, splitSub A y = s :: ss → splitSub A (u ++ y) = (u ++ s) :: ss := by
  intro u
  induction u with
  | nil => intro y _ s ss hy; simpa using hy
  | cons c u' ih =>
    intro y hfree s ss hy
    have h0 : ¬ A <+: (c :: (u' ++ y)) := by
      have := hfree 0 (by simp)
      simpa using this
    have hrest : ∀ j, j < u'.length → ¬ A <+: (u'.drop j ++ y) := by
      intro j hj
      have := hfree (j + 1) (by simp; omega)
      simpa using this
    have hmain := ih y hrest s ss hy
    rw [List.cons_append, splitSub_cons]
    have hg : ¬ (A <+: (c :: (u' ++ y)) ∧ A ≠ []) := fun hh => h0 hh.1
    rw [if_neg hg, hmain]
    rfl

theorem cleanFor_free (A I : List Char) (hc : cleanFor A I) :
    ∀ (y : List Char) (j : Nat), j < I.length → ¬ A <+: (I.drop j ++ y) := by
  intro y j hj hpre
  rcases le_or_lt A.length (I.drop j).length with hle | hlt
  · exact (hc j hj).2 ((prefix_append_irrel A (I.drop j) y hle).mp hpre)
  · have hdp : I.drop j <+: I.drop j ++ y := List.prefix_append _ _
    exact (hc j hj).1
      (List.prefix_of_prefix_length_le hdp hpre (Nat.le_of_lt hlt))

theorem goodParts_splitSub (A : List Char) (hA : A ≠ []) :
    ∀ l, goodParts A (splitSub A l) := by
  intro l
  induction l using scanInduction (o := A) with
  | h0 => simp [splitSub, splitSubAux, goodParts]
  | hmatch c r hpre ih =>
    rw [splitSub_cons, if_pos ⟨hpre, hA⟩]
    have hne := splitSub_ne_nil A (r.drop (A.length - 1))
    match hsp : splitSub A (r.drop (A.length - 1)) with
    | [] => exact absurd hsp hne
    | s :: ss =>
      rw [hsp] at ih
      exact ⟨by simp, ih⟩
  | hskip c r hpre ih =>
    rw [splitSub_cons]
    have hg : ¬ (A <+: (c :: r) ∧ A ≠ []) := fun hh => hpre hh.1
    rw [if_neg hg]
    have hne := splitSub_ne_nil A r
    match hsp : splitSub A r with
    | [] => exact absurd hsp hne
    | [s] =>
      rw [hsp] at ih
      have hrs : r = s := by
        have := joinWith_splitSub A hA r
        rw [hsp] at this
        simpa [joinWith] using this.symm
      subst hrs
      intro j hj
      match j with
      | 0 => simpa using hpre
      | j + 1 =>
        have := ih j (by simpa using Nat.lt_of_succ_lt_succ hj)
        simpa using this
    | s :: t :: ts =>
      rw [hsp] at ih
      refine ⟨?_, ih.2⟩
      have hr : r = s ++ A ++ joinWith A (t :: ts) := by
        have := joinWith_splitSub A hA r
        rw [hsp] at this
        simpa [joinWith] using this.symm
      intro j hj
      match j with
      | 0 =>
        intro hcon
        apply hpre
        rw [hr]
        have hcon' : A <+: (c :: s) ++ A := by simpa using hcon
        have h2 : A <+: ((c :: s) ++ A) ++ joinWith A (t :: ts) :=
          hcon'.trans (List.prefix_append _ _)
        simpa [List.append_assoc] using h2
      | j + 1 =>
        have := ih.1 j (by simpa using Nat.lt_of_succ_lt_succ hj)
        simpa using this

/-- A final segment with no match positions contains no occurrence at all. -/
theorem not_infix_of_noMatch (A p : List Char) (hA : A ≠ [])
    (h : ∀ j, j < p.length → ¬ A <+: p.drop j) : ¬ A <:+: p := by
  intro hinf
  obtain ⟨t, hpre, hsuf⟩ := List.infix_iff_prefix_suffix.mp hinf
  have ht : t = p.drop (p.length - t.length) := List.suffix_iff_eq_drop.mp hsuf
  have htne : t ≠ [] := by
    intro hte
    subst hte
    exact hA (List.prefix_nil.mp hpre)
  have htlen : 0 < t.length := List.length_pos.mpr htne
  have hplen : t.length ≤ p.length := hsuf.length_le
  have hj : p.length - t.length < p.length := by omega
  exact h _ hj (ht ▸ hpre)

/-- Rescanning the output: patched segments rejoined with `anchor ++ block`
split again into the same segments, each inner one now preceded by the
block.  This is the heart of the non-idempotence of the patch. -/
theorem splitSub_joinWith_patched (A I : List Char) (hA : A ≠ [])
    (hclean : cleanFor A I) :
    ∀ (ps : List (List Char)) (p : List Char), goodParts A (p :: ps) →
      splitSub A (joinWith (A ++ I) (p :: ps)) =
        p :: ps.map (fun q => I ++ q) := by
  intro ps
  induction ps with
  | nil =>
    intro p hgood
    have hni : ¬ A <:+: p := not_infix_of_noMatch A p hA hgood
    simpa [joinWith] using splitSub_no_occurrence A p hni
  | cons q qs ih =>
    intro p hgood
    have hgood1 := (by simpa [goodParts] using hgood :
      (∀ j, j < p.length → ¬ A <+: (p.drop j ++ A)) ∧ goodParts A (q :: qs))
    have hrec := ih q hgood1.2
    have hjoin : joinWith (A ++ I) (p :: q :: qs) =
        p ++ (A ++ (I ++ joinWith (A ++ I) (q :: qs))) := by
      simp [joinWith, List.append_assoc]
    rw [hjoin]
    have hinner : splitSub A (I ++ joinWith (A ++ I) (q :: qs)) =
        (I ++ q) :: qs.map (fun x => I ++ x) := by
      exact splitSub_free_append A I _
        (fun j hj => cleanFor_free A I hclean _ j hj) _ _ hrec
    have hanchor : splitSub A (A ++ (I ++ joinWith (A ++ I) (q :: qs))) =
        [] :: (I ++ q) :: qs.map (fun x => I ++ x) := by
      rw [splitSub_anchor_head A hA, hinner]
    have hfree : ∀ j, j < p.length →
        ¬ A <+: (p.drop j ++ (A ++ (I ++ joinWith (A ++ I) (q :: qs)))) := by
      intro j hj hcon
      apply hgood1.1 j hj
      have hlen : A.length ≤ (p.drop j ++ A).length := by simp
      have : A <+: (p.drop j ++ A) ++ (I ++ joinWith (A ++ I) (q :: qs)) := by
        simpa [List.append_assoc] using hcon
      exact (prefix_append_irrel A _ _ hlen).mp this
    have := splitSub_free_append A p _ hfree _ _ hanchor
    rw [this]
    simp [List.map_cons]

theorem joinWith_head_append_length (sep u s : List Char) (ss : List (List Char)) :
    (joinWith sep ((u ++ s) :: ss)).length = u.length + (joinWith sep (s :: ss)).length := by
  cases ss <;> simp [joinWith]

theorem joinWith_patched_length (A I : List Char) :
    ∀ (ps : List (List Char)) (p : List Char),
      (joinWith (A ++ I) (p :: ps.map (fun q => I ++ q))).length =
        (joinWith (A ++ I) (p :: ps)).length + ps.length * I.length := by
  intro ps
  induction ps with
  | nil => intro p; simp [joinWith]
  | cons q qs ih =>
    intro p
    have h1 : joinWith (A ++ I) (p :: (q :: qs).map (fun x => I ++ x)) =
        p ++ (A ++ I) ++ joinWith (A ++ I) ((I ++ q) :: qs.map (fun x => I ++ x)) := by
      simp [joinWith]
    have h2 : joinWith (A ++ I) (p :: q :: qs) =
        p ++ (A ++ I) ++ joinWith (A ++ I) (q :: qs) := by
      simp [joinWith]
    rw [h1, h2]
    have h3 := ih (I ++ q)
    have h4 := joinWith_head_append_length (A ++ I) I q qs
    have h5 : (q :: qs).length * I.length = qs.length * I.length + I.length := by
      simp [Nat.succ_mul]
    simp only [List.length_append, List.length_cons] at *
    omega

theorem fixAnchor_cleanFor : cleanFor fixAnchor fixInsert := by
  unfold cleanFor
  decide

theorem fixInsert_length_pos : 0 < fixInsert.length := by decide

/-- Claim C10: the patch is not idempotent.  Because the replacement re-emits
the anchor line, the anchor still occurs after a first application, so a
second application inserts the block again: the twice-patched file contains
the inserted block twice in a row after an anchor, and differs from the
once-patched file. -/
theorem patch_not_idempotent (content : List Char)
    (h : fixAnchor <:+: content) :
    (∃ a b, patchContent (patchContent content) =
        a ++ fixInsert ++ fixInsert ++ b) ∧
      patchContent (patchContent content) ≠ patchContent content := by
  have hA := fixAnchor_ne_nil
  have hparts := two_le_splitSub_length fixAnchor hA content h
  have hgood := goodParts_splitSub fixAnchor hA content
  have hpatch : patchContent content =
      joinWith (fixAnchor ++ fixInsert) (splitSub fixAnchor content) :=
    repl_eq_joinWith fixAnchor (fixAnchor ++ fixInsert) hA content
  match hsp : splitSub fixAnchor content with
  | [] => exact absurd hsp (splitSub_ne_nil fixAnchor content)
  | [p] => rw [hsp] at hparts; simp at hparts
  | p :: q :: qs =>
    rw [hsp] at hgood hpatch
    have hresplit : splitSub fixAnchor (patchContent content) =
        p :: (q :: qs).map (fun x => fixInsert ++ x) := by
      rw [hpatch]
      exact splitSub_joinWith_patched fixAnchor fixInsert hA fixAnchor_cleanFor
        (q :: qs) p hgood
    have hpatch2 : patchContent (patchContent content) =
        joinWith (fixAnchor ++ fixInsert)
          (p :: (q :: qs).map (fun x => fixInsert ++ x)) := by
      rw [patchContent, repl_eq_joinWith fixAnchor (fixAnchor ++ fixInsert) hA,
        hresplit]
    constructor
    · refine ⟨p ++ fixAnchor, ?_⟩
      have hexp : patchContent (patchContent content) =
          p ++ (fixAnchor ++ fixInsert) ++
            joinWith (fixAnchor ++ fixInsert)
              ((fixInsert ++ q) :: qs.map (fun x => fixInsert ++ x)) := by
        rw [hpatch2]; simp [joinWith]
      match qs with
      | [] =>
        refine ⟨q, ?_⟩
        rw [hexp]
        simp [joinWith, List.append_assoc]
      | t :: ts =>
        refine ⟨q ++ (fixAnchor ++ fixInsert) ++
          joinWith (fixAnchor ++ fixInsert)
            ((fixInsert ++ t) :: ts.map (fun x => fixInsert ++ x)), ?_⟩
        rw [hexp]
        simp [joinWith, List.append_assoc]
    · intro hcon
      have hlen := joinWith_patched_length fixAnchor fixInsert (q :: qs) p
      rw [← hpatch2, ← hpatch, hcon] at hlen
      have hqpos : 0 < (q :: qs).length := by simp
      have := fixInsert_length_pos
      have hmul : 0 < (q :: qs).length * fixInsert.length :=
        Nat.mul_pos hqpos this
      omega

/-- Concrete instance of C10 on a small descriptor containing the anchor. -/
theorem patch_not_idempotent_witness :
    (∃ a b, patchContent (patchContent (("XY").toList ++ fixAnchor)) =
        a ++ fixInsert ++ fixInsert ++ b) ∧
      patchContent (patchContent (("XY").toList ++ fixAnchor)) ≠
        patchContent (("XY").toList ++ fixAnchor) :=
  patch_not_idempotent (("XY").toList ++ fixAnchor) (by decide)

/-- Replacing a single character by nothing is exactly a filter. -/
theorem repl_singleton_eq_filter (x : Char) :
    ∀ l, repl [x] [] l = l.filter (fun c => c ≠ x) := by
  intro l
  induction l using scanInduction (o := [x]) with
  | h0 => rfl
  | hmatch c r hpre ih =>
    have hc : c = x := by
      have := List.cons_prefix_cons.mp hpre
      exact this.1.symm
    subst hc
    rw [repl_cons, if_pos ⟨hpre, by simp⟩]
    simp only [List.length_cons, List.length_nil, Nat.zero_add, Nat.sub_self,
      List.drop_zero] at ih ⊢
    rw [List.nil_append]
    simpa [List.filter] using ih
  | hskip c r hpre ih =>
    have hc : c ≠ x := by
      intro hcx
      exact hpre (by simp [hcx])
    rw [repl_cons]
    have hg : ¬ ([x] <+: (c :: r) ∧ ([x] : List Char) ≠ []) := fun hh => hpre hh.1
    rw [if_neg hg]
    simpa [List.filter, hc] using congrArg (List.cons c) ih

theorem hexChar_upper_ne_hyphen (n : Fin 16) : Char.toUpper (hexChar n) ≠ '-' := by
  fin_cases n <;> decide

theorem hexChar_upper_mem (n : Fin 16) :
    Char.toUpper (hexChar n) ∈ ("0123456789ABCDEF").toList := by
  fin_cases n <;> decide

/-- Claim C9: for any 32 random digits, `gen_uuid` returns exactly 24
characters, all of them uppercase hexadecimal digits. -/
theorem gen_uuid_shape (d : List (Fin 16)) (h : d.length = 32) :
    (genUuid d).length = 24 ∧
      ∀ c ∈ genUuid d, c ∈ ("0123456789ABCDEF").toList := by
  have h8 : (d.drop 8).drop 4 = d.drop 12 := by
    rw [List.drop_drop]
  have h12 : (d.drop 12).drop 4 = d.drop 16 := by
    rw [List.drop_drop]
  have h16 : (d.drop 16).drop 4 = d.drop 20 := by
    rw [List.drop_drop]
  have hsplit : (d.take 8) ++ ((d.drop 8).take 4) ++ ((d.drop 12).take 4)
      ++ ((d.drop 16).take 4) ++ (d.drop 20) = d := by
    have e4 : (d.drop 16).take 4 ++ d.drop 20 = d.drop 16 := by
      rw [← h16, List.take_append_drop]
    have e3 : (d.drop 12).take 4 ++ d.drop 16 = d.drop 12 := by
      rw [← h12, List.take_append_drop]
    have e2 : (d.drop 8).take 4 ++ d.drop 12 = d.drop 8 := by
      rw [← h8, List.take_append_drop]
    simp only [List.append_assoc]
    rw [e4, e3, e2, List.take_append_drop]
  have hfilter : repl ['-'] [] ((uuidStr d).map Char.toUpper) =
      d.map (fun n => Char.toUpper (hexChar n)) := by
    rw [repl_singleton_eq_filter]
    unfold uuidStr
    have hkeep : ∀ e : List (Fin 16),
        (e.map (Char.toUpper ∘ hexChar)).filter (fun c => c ≠ '-') =
          e.map (Char.toUpper ∘ hexChar) := by
      intro e
      apply List.filter_eq_self.mpr
      intro c hc
      obtain ⟨n, _, hn⟩ := List.mem_map.mp hc
      simpa [← hn] using hexChar_upper_ne_hyphen n
    have hhy : (decide ((('-' : Char).toUpper) ≠ '-')) = false := by decide
    simp only [List.map_append, List.map_cons, List.filter_append, List.filter_cons,
      List.map_map, hhy, Bool.false_eq_true, if_false, hkeep]
    rw [← List.map_append, ← List.map_append, ← List.map_append, ← List.map_append]
    rw [hsplit]
    rfl
  constructor
  · rw [genUuid, hfilter]
    simp [h]
  · intro c hc
    rw [genUuid, hfilter] at hc
    have hc2 := List.mem_of_mem_take hc
    obtain ⟨n, _, hn⟩ := List.mem_map.mp hc2
    exact hn ▸ hexChar_upper_mem n

/-- Concrete instance of C9 at an arbitrary 32-digit input. -/
theorem gen_uuid_shape_witness :
    (genUuid (List.replicate 32 (0 : Fin 16))).length = 24 ∧
      ∀ c ∈ genUuid (List.replicate 32 (0 : Fin 16)),
        c ∈ ("0123456789ABCDEF").toList :=
  gen_uuid_shape (List.replicate 32 (0 : Fin 16)) (by decide)

/-- Claim C3: discovery returns exactly the `*.swift` paths of the tree,
in lexicographic path order, and the result does not depend on the
enumeration order of the tree (so repeated calls over an unchanged tree
agree). -/
theorem get_swift_files_sorted_complete_stable
    (t₁ t₂ : List (List (List Char))) (hperm : t₁.Perm t₂) :
    (get_swift_files t₁).Perm ((t₁.filter isSwiftFile).map pathStr) ∧
      List.Sorted (· ≤ ·) (sortedSwift t₁) ∧
      get_swift_files t₁ = get_swift_files t₂ := by
  refine ⟨?_, ?_, ?_⟩
  · exact (List.perm_insertionSort _ _).map pathStr
  · exact List.sorted_insertionSort _ _
  · have h1 : List.Sorted (α := List (List Char)) (· ≤ ·) (sortedSwift t₁) :=
      List.sorted_insertionSort _ _
    have h2 : List.Sorted (α := List (List Char)) (· ≤ ·) (sortedSwift t₂) :=
      List.sorted_insertionSort _ _
    have hp : (sortedSwift t₁).Perm (sortedSwift t₂) :=
      (List.perm_insertionSort _ _).trans
        ((hperm.filter _).trans (List.perm_insertionSort _ _).symm)
    have : sortedSwift t₁ = sortedSwift t₂ := List.eq_of_perm_of_sorted hp h1 h2
    unfold get_swift_files
    rw [this]

/-- Concrete instance of C3: two enumeration orders of a three-entry tree. -/
theorem get_swift_files_sorted_complete_stable_witness :
    (get_swift_files
          [[("IngredientCheck").toList, ("B.swift").toList],
            [("IngredientCheck").toList, ("A.swift").toList],
            [("IngredientCheck").toList, ("notes.md").toList]]).Perm
        (([[("IngredientCheck").toList, ("B.swift").toList],
            [("IngredientCheck").toList, ("A.swift").toList],
            [("IngredientCheck").toList, ("notes.md").toList]].filter
              isSwiftFile).map pathStr) ∧
      List.Sorted (· ≤ ·) (sortedSwift
        [[("IngredientCheck").toList, ("B.swift").toList],
          [("IngredientCheck").toList, ("A.swift").toList],
          [("IngredientCheck").toList, ("notes.md").toList]]) ∧
      get_swift_files
          [[("IngredientCheck").toList, ("B.swift").toList],
            [("IngredientCheck").toList, ("A.swift").toList],
            [("IngredientCheck").toList, ("notes.md").toList]] =
        get_swift_files
          [[("IngredientCheck").toList, ("notes.md").toList],
            [("IngredientCheck").toList, ("A.swift").toList],
            [("IngredientCheck").toList, ("B.swift").toList]] :=
  get_swift_files_sorted_complete_stable
    [[("IngredientCheck").toList, ("B.swift").toList],
      [("IngredientCheck").toList, ("A.swift").toList],
      [("IngredientCheck").toList, ("notes.md").toList]]
    [[("IngredientCheck").toList, ("notes.md").toList],
      [("IngredientCheck").toList, ("A.swift").toList],
      [("IngredientCheck").toList, ("B.swift").toList]]
    (by decide)

/-- Counterexample to claim C8 as stated: for a discovered file lying in a
nested directory that is itself named `IngredientCheck`, `str.replace`
removes both occurrences of `"IngredientCheck/"`, so the interpolated path
is not the path relative to the project root. -/
theorem rel_path_not_relative_path_cex :
    relPath (("IngredientCheck/IngredientCheck/A.swift").toList) ≠
        specRelPath (("IngredientCheck/IngredientCheck/A.swift").toList) ∧
      relPath (("IngredientCheck/IngredientCheck/A.swift").toList) =
        ("A.swift").toList ∧
      specRelPath (("IngredientCheck/IngredientCheck/A.swift").toList) =
        ("IngredientCheck/A.swift").toList := by
  refine ⟨by decide, by decide, by decide⟩

/-- The substitution beginning at the pattern emits the replacement and
continues after the matched text. -/
theorem repl_anchor_head (A new : List Char) (hA : A ≠ []) (z : List Char) :
    repl A new (A ++ z) = new ++ repl A new z := by
  match A, hA with
  | a :: A', _ =>
    have hpre : a :: A' <+: a :: (A' ++ z) := by
      rw [← List.cons_append]
      exact List.prefix_append _ _
    rw [List.cons_append, repl_cons, if_pos ⟨hpre, by simp⟩]
    simp only [List.length_cons, Nat.add_sub_cancel]
    rw [List.drop_left]

/-- Claim C8 amended: when the only occurrence of `"IngredientCheck/"` in a
discovered path is its leading prefix (the typical case for files found
under the project root), the interpolated path equals the path relative to
the project root; in general `str.replace` removes every occurrence. -/
theorem rel_path_relative_when_prefix_unique (fp : List Char)
    (h1 : projRootPrefix <+: fp)
    (h2 : ¬ projRootPrefix <:+: fp.drop projRootPrefix.length) :
    relPath fp = fp.drop projRootPrefix.length := by
  have hA : projRootPrefix ≠ [] := by decide
  have hx : fp = projRootPrefix ++ fp.drop projRootPrefix.length :=
    (List.prefix_iff_eq_append.mp h1).symm
  rw [relPath]
  conv_lhs => rw [hx]
  rw [repl_anchor_head projRootPrefix [] hA, List.nil_append]
  exact repl_no_occurrence projRootPrefix [] hA _ h2

/-- Concrete instance of the amended C8 on a typical discovered path. -/
theorem rel_path_relative_when_prefix_unique_witness :
    relPath (("IngredientCheck/Views/ScanView.swift").toList) =
      (("IngredientCheck/Views/ScanView.swift").toList).drop
        projRootPrefix.length :=
  rel_path_relative_when_prefix_unique
    (("IngredientCheck/Views/ScanView.swift").toList) (by decide) (by decide)

theorem flat_nil : flat [] = [] := rfl

theorem flat_cons (p : Piece) (ps : List Piece) :
    flat (p :: ps) = p.text ++ flat ps := by
  simp [flat]

theorem flat_append (ps qs : List Piece) :
    flat (ps ++ qs) = flat ps ++ flat qs := by
  simp [flat]

/-- Claim C5: the identifier rendered into every `BlueprintIdentifier`
attribute of the scheme's `BuildableReference`s is the same run's
`target_uuid` that heads the descriptor's `PBXNativeTarget` section. -/
theorem scheme_blueprint_matches_native_target (r : Run) (files : List (List Char)) :
    ∃ a b s₁ s₂ s₃ s₄,
      pbxprojText r files =
          a ++ ("/* Begin PBXNativeTarget section */").toList ++ ("\n\t\t").toList
            ++ r.targetUuid ++ (" /* ").toList ++ projectName
            ++ (" */ = \x7b\n\t\t\tisa = PBXNativeTarget;\n\t\t\tbuildConfigurationList = ").toList
            ++ b ∧
        schemeText r =
          s₁ ++ ("BlueprintIdentifier = \"").toList ++ r.targetUuid
            ++ ("\" BuildableName = \"").toList ++ s₂
            ++ ("BlueprintIdentifier = \"").toList ++ r.targetUuid
            ++ ("\" BuildableName = \"").toList ++ s₃
            ++ ("BlueprintIdentifier = \"").toList ++ r.targetUuid
            ++ ("\" BuildableName = \"").toList ++ s₄ := by
  refine ⟨flat (pbxPieces1 ++ buildFilesPieces r files ++ pbxPieces2
      ++ fileRefsPieces r files ++ pbxPieces3 r ++ sourceChildrenPieces r files
      ++ pbxPieces4),
    flat (pbxPieces5 r ++ sourcesFilesPieces r files ++ pbxPieces6 r),
    flat schPieces1, flat schPieces2, flat schPieces3, flat schPieces4, ?_, ?_⟩
  · simp [pbxprojText, pbxprojPieces, pbxTargetHeadPieces, flat_append, flat_cons,
      flat_nil, Piece.text, List.append_assoc]
  · simp [schemeText, schemePieces, schBlueprintPieces, flat_append, flat_cons,
      flat_nil, Piece.text, List.append_assoc]

theorem eraseIdent_buildFiles (r₁ r₂ : Run) (files : List (List Char)) :
    (buildFilesPieces r₁ files).map eraseIdent =
      (buildFilesPieces r₂ files).map eraseIdent := by
  induction files with
  | nil => rfl
  | cons fp fps ih =>
    simp only [buildFilesPieces, List.map_cons, List.flatten_cons,
      List.map_append] at ih ⊢
    rw [ih]
    rfl

theorem eraseIdent_fileRefs (r₁ r₂ : Run) (files : List (List Char)) :
    (fileRefsPieces r₁ files).map eraseIdent =
      (fileRefsPieces r₂ files).map eraseIdent := by
  induction files with
  | nil => rfl
  | cons fp fps ih =>
    simp only [fileRefsPieces, List.map_cons, List.flatten_cons,
      List.map_append] at ih ⊢
    rw [List.append_assoc, List.append_assoc, ih]
    rfl

theorem eraseIdent_sourceChildren (r₁ r₂ : Run) (files : List (List Char)) :
    (sourceChildrenPieces r₁ files).map eraseIdent =
      (sourceChildrenPieces r₂ files).map eraseIdent := by
  induction files with
  | nil => rfl
  | cons fp fps ih =>
    simp only [sourceChildrenPieces, List.map_cons, List.flatten_cons,
      List.map_append] at ih ⊢
    rw [List.append_assoc, List.append_assoc, ih]
    rfl

theorem eraseIdent_sourcesFiles (r₁ r₂ : Run) (files : List (List Char)) :
    (sourcesFilesPieces r₁ files).map eraseIdent =
      (sourcesFilesPieces r₂ files).map eraseIdent := by
  induction files with
  | nil => rfl
  | cons fp fps ih =>
    simp only [sourcesFilesPieces, List.map_cons, List.flatten_cons,
      List.map_append] at ih ⊢
    rw [ih]
    rfl

theorem eraseIdent_pbxproj (files : List (List Char)) (r₁ r₂ : Run) :
    (pbxprojPieces r₁ files).map eraseIdent =
      (pbxprojPieces r₂ files).map eraseIdent := by
  simp only [pbxprojPieces, List.map_append]
  rw [eraseIdent_buildFiles r₁ r₂ files, eraseIdent_fileRefs r₁ r₂ files,
    eraseIdent_sourceChildren r₁ r₂ files, eraseIdent_sourcesFiles r₁ r₂ files]
  rfl

theorem interpNames_map_eraseIdent (ps : List Piece) :
    interpNames (ps.map eraseIdent) = interpNames ps := by
  unfold interpNames
  rw [List.filterMap_map]
  congr 1
  funext p
  cases p <;> rfl

/-- Claim C6: two runs over the same discovered file list render descriptors
with identical template skeletons and identical file-derived text (the
interpolated filenames and relative paths, in the same order); only the
values of the identifier pieces differ between the two outputs. -/
theorem regeneration_preserves_names_and_paths (files : List (List Char))
    (r₁ r₂ : Run) :
    pbxprojText r₁ files = flat (pbxprojPieces r₁ files) ∧
      pbxprojText r₂ files = flat (pbxprojPieces r₂ files) ∧
      (pbxprojPieces r₁ files).map eraseIdent =
        (pbxprojPieces r₂ files).map eraseIdent ∧
      interpNames (pbxprojPieces r₁ files) = interpNames (pbxprojPieces r₂ files) := by
  refine ⟨rfl, rfl, eraseIdent_pbxproj files r₁ r₂, ?_⟩
  calc interpNames (pbxprojPieces r₁ files)
      = interpNames ((pbxprojPieces r₁ files).map eraseIdent) :=
        (interpNames_map_eraseIdent _).symm
    _ = interpNames ((pbxprojPieces r₂ files).map eraseIdent) := by
        rw [eraseIdent_pbxproj files r₁ r₂]
    _ = interpNames (pbxprojPieces r₂ files) := interpNames_map_eraseIdent _

theorem flat_sourceChildren (r : Run) (files : List (List Char)) :
    flat (sourceChildrenPieces r files) =
      (files.map (fun fp => childEntry r fp)).flatten ++ infoChildEntry r := by
  induction files with
  | nil =>
    simp [sourceChildrenPieces, flat, Piece.text, infoChildEntry, List.append_assoc]
  | cons fp fps ih =>
    simp only [sourceChildrenPieces, List.map_cons, List.flatten_cons] at ih ⊢
    rw [List.append_assoc, flat_append, ih, flat_cons, flat_cons, flat_cons,
      flat_cons, flat_cons, flat_nil]
    simp [Piece.text, childEntry, List.append_assoc]

/-- Claim C7: the group-children section lists one entry per discovered
file, in the (lexicographically sorted) discovery order, with the fixed
`Info.plist` entry as the final child; in particular a tree holding exactly
two matching files `A ≤ B` lists `A`'s entry, then `B`'s, then the
`Info.plist` entry. -/
theorem group_children_sorted_info_last (r : Run) (tree : List (List (List Char)))
    (A B : List (List Char)) (hA : isSwiftFile A = true)
    (hB : isSwiftFile B = true) (hAB : A ≤ B) :
    flat (sourceChildrenPieces r (get_swift_files tree)) =
        ((get_swift_files tree).map (fun fp => childEntry r fp)).flatten
          ++ infoChildEntry r ∧
      List.Sorted (· ≤ ·) (sortedSwift tree) ∧
      get_swift_files [A, B] = [pathStr A, pathStr B] ∧
      flat (sourceChildrenPieces r (get_swift_files [A, B])) =
        childEntry r (pathStr A) ++ (childEntry r (pathStr B) ++ infoChildEntry r) := by
  have h2 : get_swift_files [A, B] = [pathStr A, pathStr B] := by
    simp [get_swift_files, sortedSwift, List.insertionSort, List.orderedInsert,
      hA, hB, hAB]
  refine ⟨flat_sourceChildren r _, List.sorted_insertionSort _ _, h2, ?_⟩
  rw [h2, flat_sourceChildren]
  simp [List.append_assoc]

/-- Concrete instance of C7 on a two-file tree. -/
theorem group_children_sorted_info_last_witness :
    flat (sourceChildrenPieces runDemo (get_swift_files
          [[("IngredientCheck").toList, ("B.swift").toList],
            [("IngredientCheck").toList, ("A.swift").toList]])) =
        ((get_swift_files
            [[("IngredientCheck").toList, ("B.swift").toList],
              [("IngredientCheck").toList, ("A.swift").toList]]).map
          (fun fp => childEntry runDemo fp)).flatten ++ infoChildEntry runDemo ∧
      List.Sorted (· ≤ ·) (sortedSwift
        [[("IngredientCheck").toList, ("B.swift").toList],
          [("IngredientCheck").toList, ("A.swift").toList]]) ∧
      get_swift_files
          [[("IngredientCheck").toList, ("A.swift").toList],
            [("IngredientCheck").toList, ("B.swift").toList]] =
        [pathStr [("IngredientCheck").toList, ("A.swift").toList],
          pathStr [("IngredientCheck").toList, ("B.swift").toList]] ∧
      flat (sourceChildrenPieces runDemo (get_swift_files
          [[("IngredientCheck").toList, ("A.swift").toList],
            [("IngredientCheck").toList, ("B.swift").toList]])) =
        childEntry runDemo (pathStr [("IngredientCheck").toList, ("A.swift").toList])
          ++ (childEntry runDemo (pathStr [("IngredientCheck").toList, ("B.swift").toList])
            ++ infoChildEntry runDemo) :=
  group_children_sorted_info_last runDemo
    [[("IngredientCheck").toList, ("B.swift").toList],
      [("IngredientCheck").toList, ("A.swift").toList]]
    [("IngredientCheck").toList, ("A.swift").toList]
    [("IngredientCheck").toList, ("B.swift").toList]
    (by decide) (by decide) (by decide)

theorem idPieces_append (ps qs : List Piece) :
    idPieces (ps ++ qs) = idPieces ps ++ idPieces qs := by
  simp [idPieces]

theorem idPieces_buildFiles (r : Run) (files : List (List Char)) :
    idPieces (buildFilesPieces r files) =
      (files.map (fun fp => [r.buildFileUuid fp, r.fileUuid fp])).flatten := by
  induction files with
  | nil => rfl
  | cons fp fps ih =>
    simp only [buildFilesPieces, List.map_cons, List.flatten_cons] at ih ⊢
    rw [idPieces_append, ih]
    rfl

theorem idPieces_fileRefs (r : Run) (files : List (List Char)) :
    idPieces (fileRefsPieces r files) =
      files.map r.fileUuid ++ [r.infoPlistUuid] := by
  induction files with
  | nil => rfl
  | cons fp fps ih =>
    simp only [fileRefsPieces, List.map_cons, List.flatten_cons] at ih ⊢
    rw [List.append_assoc, idPieces_append, ih]
    rfl

theorem idPieces_sourceChildren (r : Run) (files : List (List Char)) :
    idPieces (sourceChildrenPieces r files) =
      files.map r.fileUuid ++ [r.infoPlistUuid] := by
  induction files with
  | nil => rfl
  | cons fp fps ih =>
    simp only [sourceChildrenPieces, List.map_cons, List.flatten_cons] at ih ⊢
    rw [List.append_assoc, idPieces_append, ih]
    rfl

theorem idPieces_sourcesFiles (r : Run) (files : List (List Char)) :
    idPieces (sourcesFilesPieces r files) = files.map r.buildFileUuid := by
  induction files with
  | nil => rfl
  | cons fp fps ih =>
    simp only [sourcesFilesPieces, List.map_cons, List.flatten_cons] at ih ⊢
    rw [idPieces_append, ih]
    rfl

theorem count_pair_flatten (x y : List Char → List Char)
    (files : List (List Char)) (a : List Char) :
    ((files.map (fun fp => [x fp, y fp])).flatten).count a =
      (files.map x).count a + (files.map y).count a := by
  induction files with
  | nil => rfl
  | cons fp fps ih =>
    simp only [List.map_cons, List.flatten_cons, List.count_append,
      List.count_cons, List.count_nil] at ih ⊢
    omega

theorem count_definedIds (r : Run) (files : List (List Char)) (a : List Char) :
    (definedIds r files).count a = (mintedIds r files).count a := by
  simp only [definedIds, mintedIds, List.count_append, List.count_cons,
    List.count_nil]
  omega

set_option maxHeartbeats 2000000 in

/-- Claim C4: in a run whose minted identifiers are pairwise distinct (the
minting contract: each is a fresh random token), the descriptor's
definition sites carry pairwise distinct identifiers, every identifier
interpolated anywhere in the descriptor is either a definition or a
cross-reference (the interpolations are exactly `definedIds ++
referencedIds`, up to order), and every cross-referenced identifier has
exactly one definition site. -/
theorem identifiers_unique_no_dangling (r : Run) (files : List (List Char))
    (hfresh : (mintedIds r files).Nodup) :
    (idPieces (pbxprojPieces r files)).Perm
        (definedIds r files ++ referencedIds r files) ∧
      (definedIds r files).Nodup ∧
      ∀ t ∈ referencedIds r files, (definedIds r files).count t = 1 := by
  have hnodup : (definedIds r files).Nodup := by
    rw [List.nodup_iff_count_le_one]
    intro a
    rw [count_definedIds]
    exact List.nodup_iff_count_le_one.mp hfresh a
  refine ⟨?_, hnodup, ?_⟩
  · rw [List.perm_iff_count]
    intro a
    have hsplit : idPieces (pbxprojPieces r files) =
        idPieces pbxPieces1 ++ idPieces (buildFilesPieces r files)
          ++ idPieces pbxPieces2 ++ idPieces (fileRefsPieces r files)
          ++ idPieces (pbxPieces3 r) ++ idPieces (sourceChildrenPieces r files)
          ++ idPieces pbxPieces4 ++ idPieces (pbxTargetHeadPieces r)
          ++ idPieces (pbxPieces5 r) ++ idPieces (sourcesFilesPieces r files)
          ++ idPieces (pbxPieces6 r) := by
      simp only [pbxprojPieces, idPieces_append]
    rw [hsplit, idPieces_buildFiles, idPieces_fileRefs, idPieces_sourceChildren,
      idPieces_sourcesFiles]
    have g1 : idPieces pbxPieces1 = [] := rfl
    have g2 : idPieces pbxPieces2 = [] := rfl
    have g3 : idPieces (pbxPieces3 r) =
        [r.productRefUuid, r.frameworksBuildPhaseUuid, r.mainGroupUuid,
          r.sourceGroupUuid, r.productsGroupUuid, r.productsGroupUuid,
          r.productRefUuid, r.sourceGroupUuid] := rfl
    have g4 : idPieces pbxPieces4 = [] := rfl
    have gT : idPieces (pbxTargetHeadPieces r) = [r.targetUuid] := rfl
    have g5 : idPieces (pbxPieces5 r) =
        [r.buildConfigListTargetUuid, r.sourceBuildPhaseUuid,
          r.frameworksBuildPhaseUuid, r.resourcesBuildPhaseUuid,
          r.productRefUuid, r.projectUuid, r.targetUuid,
          r.buildConfigListProjectUuid, r.mainGroupUuid, r.productsGroupUuid,
          r.targetUuid, r.resourcesBuildPhaseUuid, r.sourceBuildPhaseUuid] := rfl
    have g6 : idPieces (pbxPieces6 r) =
        [r.debugConfigProjectUuid, r.releaseConfigProjectUuid,
          r.debugConfigTargetUuid, r.releaseConfigTargetUuid,
          r.buildConfigListProjectUuid, r.debugConfigProjectUuid,
          r.releaseConfigProjectUuid, r.buildConfigListTargetUuid,
          r.debugConfigTargetUuid, r.releaseConfigTargetUuid,
          r.projectUuid] := rfl
    rw [g1, g2, g3, g4, gT, g5, g6]
    simp only [definedIds, referencedIds, List.count_append, List.count_cons,
      List.count_nil, List.nil_append, count_pair_flatten]
    omega
  · intro t ht
    have hmem : t ∈ definedIds r files := by
      simp only [referencedIds, definedIds, List.mem_append, List.mem_cons,
        List.not_mem_nil, or_false, false_or, List.mem_singleton] at ht ⊢
      tauto
    exact List.count_eq_one_of_mem hnodup hmem

/-- Concrete instance of C4 on a fresh two-file run. -/
theorem identifiers_unique_no_dangling_witness :
    (mintedIds runDemo
        [("IngredientCheck/A.swift").toList,
          ("IngredientCheck/Views/B.swift").toList]).Nodup ∧
      ((idPieces (pbxprojPieces runDemo
            [("IngredientCheck/A.swift").toList,
              ("IngredientCheck/Views/B.swift").toList])).Perm
          (definedIds runDemo
              [("IngredientCheck/A.swift").toList,
                ("IngredientCheck/Views/B.swift").toList]
            ++ referencedIds runDemo
              [("IngredientCheck/A.swift").toList,
                ("IngredientCheck/Views/B.swift").toList]) ∧
        (definedIds runDemo
            [("IngredientCheck/A.swift").toList,
              ("IngredientCheck/Views/B.swift").toList]).Nodup ∧
        ∀ t ∈ referencedIds runDemo
            [("IngredientCheck/A.swift").toList,
              ("IngredientCheck/Views/B.swift").toList],
          (definedIds runDemo
              [("IngredientCheck/A.swift").toList,
                ("IngredientCheck/Views/B.swift").toList]).count t = 1) :=
  ⟨by decide,
    identifiers_unique_no_dangling runDemo
      [("IngredientCheck/A.swift").toList,
        ("IngredientCheck/Views/B.swift").toList] (by decide)⟩
